import Mathlib

/-!
Shallow embedding of `mcscoreboard.py` (class `Scoreboard`): parsing of
Minecraft scoreboard data from a decoded NBT tag tree or a previously
serialized JSON document, player whitelist/blacklist filtering, and the
per-objective ranking query `get_objective_scores`.

Python dictionaries are modelled as insertion-ordered association lists
with string keys; Python exceptions are modelled with `Except PyErr`.
-/

/-- Python values as stored in the attributes of `Scoreboard` and produced by
the `json` module: strings, integers, booleans, `None`, lists, and dicts
(insertion-ordered, string-keyed, as every dict in this program is). -/
inductive PyVal : Type where
  | str (s : String)
  | int (n : Int)
  | bool (b : Bool)
  | null
  | list (items : List PyVal)
  | dict (entries : List (String × PyVal))

/-- Python exception kinds raised by the embedded code. `valueError` is the
configuration error raised for a simultaneous whitelist and blacklist;
`keyError` is a failed dict/compound subscript; `typeError` covers subscripting
or iterating a value of the wrong shape; `attributeError` covers calling
`.items()` on a non-dict; `jsonDecodeError` is raised by `json.loads`. -/
inductive PyErr : Type where
  | valueError
  | keyError (key : String)
  | typeError
  | attributeError
  | jsonDecodeError
deriving DecidableEq

/-- Lookup in a Python dict modelled as an insertion-ordered association list
(first match wins; keys are unique in every dict the program builds). -/
def alistGet? {V : Type} : List (String × V) → String → Option V
  | [], _ => none
  | (k, v) :: rest, key => if k = key then some v else alistGet? rest key

/-- Python dict item assignment `d[key] = v`: replaces the value in place if the
key exists (keeping its position), otherwise appends the pair at the end. -/
def alistSet {V : Type} : List (String × V) → String → V → List (String × V)
  | [], key, v => [(key, v)]
  | (k, w) :: rest, key, v =>
    if k = key then (key, v) :: rest else (k, w) :: alistSet rest key v

/-- Python truthiness for the values this program tests with `if`/`not`. -/
def pyTruthy : PyVal → Bool
  | .str s => s != ""
  | .int n => n != 0
  | .bool b => b
  | .null => false
  | .list items => !items.isEmpty
  | .dict entries => !entries.isEmpty

/-- Python `s.startswith(p)`. -/
def pyStartsWith (s p : String) : Bool := p.toList.isPrefixOf s.toList

/-! ### Model of `json.loads`

The program calls `json.loads` (Python standard library) on display-name
strings and conceptually on the whitelist/blacklist and `.json` data files.
It is modelled here as a recursive-descent parser over the character list,
covering the JSON subset that scoreboard data uses: objects, arrays, strings
with the single-character escapes, integer numbers, `true`, `false`, `null`,
and insignificant whitespace. Floating-point numbers and `\u` escapes are
outside the model and are mapped to `jsonDecodeError`. -/

/-- Skip insignificant JSON whitespace. -/
def jsonSkipWs : List Char → List Char
  | c :: rest =>
    if c = ' ' ∨ c = '\n' ∨ c = '\t' ∨ c = '\r' then jsonSkipWs rest else c :: rest
  | [] => []

/-- Decode a single-character JSON string escape. -/
def jsonEscape (c : Char) : Option Char :=
  if c = '"' then some '"'
  else if c = '\\' then some '\\'
  else if c = '/' then some '/'
  else if c = 'n' then some '\n'
  else if c = 't' then some '\t'
  else if c = 'r' then some '\r'
  else if c = 'b' then some (Char.ofNat 8)
  else if c = 'f' then some (Char.ofNat 12)
  else none

/-- Parse the remainder of a JSON string, the opening quote already consumed;
returns the decoded string and the input after the closing quote. -/
def jsonStringRest : List Char → Except PyErr (String × List Char)
  | [] => .error .jsonDecodeError
  | c :: rest =>
    if c = '"' then .ok ("", rest)
    else if c = '\\' then
      match rest with
      | [] => .error .jsonDecodeError
      | e :: rest2 =>
        match jsonEscape e with
        | some d =>
          match jsonStringRest rest2 with
          | .ok (s, r) => .ok (String.mk (d :: s.data), r)
          | .error err => .error err
        | none => .error .jsonDecodeError
    else
      match jsonStringRest rest with
      | .ok (s, r) => .ok (String.mk (c :: s.data), r)
      | .error err => .error err

/-- Take a maximal run of decimal digits. -/
def jsonDigits : List Char → List Char × List Char
  | [] => ([], [])
  | c :: rest =>
    if c.isDigit then
      let (ds, r) := jsonDigits rest
      (c :: ds, r)
    else ([], c :: rest)

/-- Numeric value of a digit run. -/
def digitsToNat (ds : List Char) : Nat :=
  ds.foldl (fun a c => a * 10 + (c.toNat - 48)) 0

/-- Parse a JSON number. Only integers are modelled; a fractional part or an
exponent falls outside the model and yields `jsonDecodeError`. -/
def jsonNumber (cs : List Char) : Except PyErr (PyVal × List Char) :=
  let (neg, cs1) := match cs with
    | '-' :: rest => (true, rest)
    | _ => (false, cs)
  match jsonDigits cs1 with
  | ([], _) => .error .jsonDecodeError
  | (ds, r) =>
    match r with
    | '.' :: _ => .error .jsonDecodeError
    | 'e' :: _ => .error .jsonDecodeError
    | 'E' :: _ => .error .jsonDecodeError
    | _ =>
      let n : Int := Int.ofNat (digitsToNat ds)
      .ok (.int (if neg then -n else n), r)

mutual

/-- Parse one JSON value; fuelled so that the recursion is structural. -/
def jsonVal : Nat → List Char → Except PyErr (PyVal × List Char)
  | 0, _ => .error .jsonDecodeError
  | fuel + 1, cs =>
    match jsonSkipWs cs with
    | [] => .error .jsonDecodeError
    | c :: rest =>
      if c = '\x7b' then
        match jsonSkipWs rest with
        | '\x7d' :: r => .ok (.dict [], r)
        | cs2 =>
          match jsonMembers fuel cs2 with
          | .ok (ms, r) =>
            .ok (.dict (ms.foldl (fun d kv => alistSet d kv.1 kv.2) []), r)
          | .error e => .error e
      else if c = '[' then
        match jsonSkipWs rest with
        | ']' :: r => .ok (.list [], r)
        | cs2 =>
          match jsonItems fuel cs2 with
          | .ok (vs, r) => .ok (.list vs, r)
          | .error e => .error e
      else if c = '"' then
        match jsonStringRest rest with
        | .ok (s, r) => .ok (.str s, r)
        | .error e => .error e
      else if c = 't' then
        match rest with
        | 'r' :: 'u' :: 'e' :: r => .ok (.bool true, r)
        | _ => .error .jsonDecodeError
      else if c = 'f' then
        match rest with
        | 'a' :: 'l' :: 's' :: 'e' :: r => .ok (.bool false, r)
        | _ => .error .jsonDecodeError
      else if c = 'n' then
        match rest with
        | 'u' :: 'l' :: 'l' :: r => .ok (.null, r)
        | _ => .error .jsonDecodeError
      else if c = '-' ∨ c.isDigit then
        jsonNumber (c :: rest)
      else .error .jsonDecodeError

/-- Parse one or more `"key": value` members of a JSON object, including the
closing brace. -/
def jsonMembers : Nat → List Char → Except PyErr (List (String × PyVal) × List Char)
  | 0, _ => .error .jsonDecodeError
  | fuel + 1, cs =>
    match jsonSkipWs cs with
    | '"' :: rest =>
      match jsonStringRest rest with
      | .ok (key, r1) =>
        match jsonSkipWs r1 with
        | ':' :: r2 =>
          match jsonVal fuel r2 with
          | .ok (v, r3) =>
            match jsonSkipWs r3 with
            | ',' :: r4 =>
              match jsonMembers fuel r4 with
              | .ok (ms, r5) => .ok ((key, v) :: ms, r5)
              | .error e => .error e
            | '\x7d' :: r4 => .ok ([(key, v)], r4)
            | _ => .error .jsonDecodeError
          | .error e => .error e
        | _ => .error .jsonDecodeError
      | .error e => .error e
    | _ => .error .jsonDecodeError

/-- Parse one or more items of a JSON array, including the closing bracket. -/
def jsonItems : Nat → List Char → Except PyErr (List PyVal × List Char)
  | 0, _ => .error .jsonDecodeError
  | fuel + 1, cs =>
    match jsonVal fuel cs with
    | .ok (v, r1) =>
      match jsonSkipWs r1 with
      | ',' :: r2 =>
        match jsonItems fuel r2 with
        | .ok (vs, r3) => .ok (v :: vs, r3)
        | .error e => .error e
      | ']' :: r2 => .ok ([v], r2)
      | _ => .error .jsonDecodeError
    | .error e => .error e

end

/-- Model of `json.loads`: parse a whole document, requiring the input to be
consumed up to trailing whitespace. -/
def jsonLoads (s : String) : Except PyErr PyVal :=
  match jsonVal (s.length + 1) s.toList with
  | .ok (v, rest) =>
    if (jsonSkipWs rest).isEmpty then .ok v else .error .jsonDecodeError
  | .error e => .error e

example : jsonLoads "\x7b\"text\": \"Stone Mined\"\x7d"
    = .ok (.dict [("text", .str "Stone Mined")]) := rfl
example : jsonLoads "hello" = .error .jsonDecodeError := rfl
example : jsonLoads "\x7b\"a\": [1, -2]\x7d"
    = .ok (.dict [("a", .list [.int 1, .int (-2)])]) := rfl

/-! ### NBT tag trees

The external `nbt` library decodes a `.dat` file into a tree of named, typed
tags. The program only reads `.value` of scalar tags, subscripts compounds by
name, iterates lists, and calls `.items()` on compounds, so the tree is
modelled with scalar, list and compound nodes. -/

/-- A decoded NBT tag: a scalar (string/int/... leaf, exposing `.value`), a
list tag, or a compound tag (named children, in file order). -/
inductive Nbt : Type where
  | scalar (v : PyVal)
  | nlist (items : List Nbt)
  | compound (entries : List (String × Nbt))

/-- Subscripting a tag by name, `tag[key]`: a lookup in a compound; a missing
name raises `KeyError`, a non-compound raises `TypeError`. -/
def nbtGet : Nbt → String → Except PyErr Nbt
  | .compound es, key =>
    match alistGet? es key with
    | some t => .ok t
    | none => .error (.keyError key)
  | _, _ => .error .typeError

/-- Reading `.value` of a scalar tag; the program only does this where the
data holds a leaf tag. -/
def nbtValue : Nbt → Except PyErr PyVal
  | .scalar v => .ok v
  | _ => .error .typeError

/-- Iterating a list tag, `for x in tag`. -/
def nbtItems : Nbt → Except PyErr (List Nbt)
  | .nlist items => .ok items
  | _ => .error .typeError

/-- Coercion of a `PyVal` used as a dict key or as the argument of string
methods; in scoreboard data these tags are always strings. -/
def asStr : PyVal → Except PyErr String
  | .str s => .ok s
  | _ => .error .typeError

/-- Values of a list of scalar tags, `[t.value for t in tags]`. -/
def nbtValues : List Nbt → Except PyErr (List PyVal)
  | [] => .ok []
  | t :: rest => do
    let v ← nbtValue t
    let vs ← nbtValues rest
    .ok (v :: vs)

/-! ### Filter lists (whitelist / blacklist) -/

/-- One entry of a `whitelist.json`-style file: an object with at least
`uuid` and `name` string fields. -/
structure WlEntry where
  uuid : String
  name : String

/-- The `player_whitelist` / `player_blacklist` constructor argument: either a
Python list of username strings, or a file path (the decoded JSON contents of
the file at that path are carried alongside, standing for the one-shot
`json.load` the constructor performs). The default argument is the empty
string, i.e. `pathArg "" []`. -/
inductive FilterArg : Type where
  | listArg (names : List String)
  | pathArg (path : String) (file : List WlEntry)

/-- Python truthiness of a filter argument (`if player_whitelist ...`). -/
def FilterArg.truthy : FilterArg → Bool
  | .listArg names => !names.isEmpty
  | .pathArg path _ => path != ""

/-- The `isinstance(arg, (Path, str))` test in the constructor. -/
def FilterArg.isPathLike : FilterArg → Bool
  | .listArg _ => false
  | .pathArg _ _ => true

/-- The decoded file contents behind a path argument. -/
def FilterArg.file : FilterArg → List WlEntry
  | .listArg _ => []
  | .pathArg _ f => f

/-- Test for the all-zero offline-player UUID marker,
`player["uuid"].startswith("00000000-0000-0000-")`. -/
def offlineUuid (u : String) : Bool := pyStartsWith u "00000000-0000-0000-"

/-- The whitelist-loading loop (source lines 33-40): append the name of every
entry whose uuid does not start with the all-zero marker. -/
def buildWhitelist (file : List WlEntry) : List String :=
  file.foldl (fun acc e => if offlineUuid e.uuid then acc else acc ++ [e.name]) []

/-- The blacklist-loading loop (source lines 46-47): append every name, with
no uuid check. -/
def buildBlacklist (file : List WlEntry) : List String :=
  file.foldl (fun acc e => acc ++ [e.name]) []

/-! ### The Scoreboard record -/

/-- The `data_source` constructor argument, after the external file read and
decode: a path with suffix `.json` (carrying the decoded document), a path
with suffix `.dat` (carrying the decoded NBT root compound), or a path with
any other suffix. -/
inductive DataSource : Type where
  | jsonFile (doc : PyVal)
  | datFile (root : Nbt)
  | otherFile

/-- The attributes of a constructed `Scoreboard` object. `Option` models
attributes the constructor may leave unset (a data source with an
unrecognized suffix sets none of the record fields). -/
structure Scoreboard where
  player_whitelist : List String
  player_blacklist : List String
  data : Option Nbt
  teams : Option PyVal
  objectives : Option PyVal
  player_scores : Option PyVal
  display_slots : Option PyVal

/-- Subscripting a decoded JSON document, `json_data[key]`. -/
def pyGet (v : PyVal) (key : String) : Except PyErr PyVal :=
  match v with
  | .dict es =>
    match alistGet? es key with
    | some w => .ok w
    | none => .error (.keyError key)
  | _ => .error .typeError

/-- The dict built for one team tag (source lines 65-76): the nine scalar
attributes, the member list, and the dual raw/parsed display name, in source
order. The display-name string is passed through `json.loads`. -/
def teamValue (team : Nbt) : Except PyErr PyVal := do
  let dmv ← nbtValue (← nbtGet team "DeathMessageVisibility")
  let tc ← nbtValue (← nbtGet team "TeamColor")
  let sfi ← nbtValue (← nbtGet team "SeeFriendlyInvisibles")
  let cr ← nbtValue (← nbtGet team "CollisionRule")
  let aff ← nbtValue (← nbtGet team "AllowFriendlyFire")
  let mnp ← nbtValue (← nbtGet team "MemberNamePrefix")
  let ntv ← nbtValue (← nbtGet team "NameTagVisibility")
  let mns ← nbtValue (← nbtGet team "MemberNameSuffix")
  let players ← nbtValues (← nbtItems (← nbtGet team "Players"))
  let dn ← asStr (← nbtValue (← nbtGet team "DisplayName"))
  let jd ← jsonLoads dn
  .ok (.dict
    [("DeathMessageVisibility", dmv), ("TeamColor", tc),
     ("SeeFriendlyInvisibles", sfi), ("CollisionRule", cr),
     ("AllowFriendlyFire", aff), ("MemberNamePrefix", mnp),
     ("NameTagVisibility", ntv), ("MemberNameSuffix", mns),
     ("Players", .list players),
     ("DisplayName", .dict [("json_dict", jd), ("json_string", .str dn)])])

/-- The loop over the Teams child of `self.data` (source lines 64-76),
accumulating `self.teams` keyed by the Name tag value of each team. -/
def processTeams (acc : List (String × PyVal)) :
    List Nbt → Except PyErr (List (String × PyVal))
  | [] => .ok acc
  | team :: rest => do
    let v ← teamValue team
    let name ← asStr (← nbtValue (← nbtGet team "Name"))
    processTeams (alistSet acc name v) rest

/-- The dict built for one objective tag (source lines 79-83). -/
def objectiveValue (obj : Nbt) : Except PyErr PyVal := do
  let cn ← nbtValue (← nbtGet obj "CriteriaName")
  let rt ← nbtValue (← nbtGet obj "RenderType")
  let dn ← asStr (← nbtValue (← nbtGet obj "DisplayName"))
  let jd ← jsonLoads dn
  .ok (.dict
    [("CriteriaName", cn), ("RenderType", rt),
     ("DisplayName", .dict [("json_dict", jd), ("json_string", .str dn)])])

/-- The loop over the Objectives child of `self.data` (source lines 78-83). -/
def processObjectives (acc : List (String × PyVal)) :
    List Nbt → Except PyErr (List (String × PyVal))
  | [] => .ok acc
  | obj :: rest => do
    let v ← objectiveValue obj
    let name ← asStr (← nbtValue (← nbtGet obj "Name"))
    processObjectives (alistSet acc name v) rest

/-- The display-slot comprehension over the items of a compound tag
(source line 84). -/
def slotsValues : List (String × Nbt) → Except PyErr (List (String × PyVal))
  | [] => .ok []
  | (slot, obj) :: rest => do
    let v ← nbtValue obj
    let vs ← slotsValues rest
    .ok ((slot, v) :: vs)

/-- The comprehension `{slot: obj.value for slot, obj in
the items of the DisplaySlots compound; `.items()` on a non-compound raises. -/
def processSlots : Nbt → Except PyErr (List (String × PyVal))
  | .compound es => slotsValues es
  | _ => .error .attributeError

/-- The filter condition of source lines 90-91, exactly as written: skip when
the blacklist is truthy and contains the name, or when (the whitelist is
truthy and does not contain the name) and (`include_dot_names` is true and
the name does not start with a dot). -/
def skipEntry (player_blacklist player_whitelist : List String)
    (include_dot_names : Bool) (player_name : String) : Bool :=
  (!player_blacklist.isEmpty && player_blacklist.contains player_name) ||
    ((!player_whitelist.isEmpty && !player_whitelist.contains player_name) &&
      (include_dot_names && !pyStartsWith player_name "."))

/-- The merge of one accepted score entry (source lines 96-99): create an
empty dict for the player if absent, then set `player[objective] = score`.
The values of the accumulator are always dicts; the non-dict fallback is
unreachable from `[]`. -/
def addScore (ps : List (String × PyVal)) (player objective : String)
    (score : PyVal) : List (String × PyVal) :=
  let ps1 := match alistGet? ps player with
    | some _ => ps
    | none => ps ++ [(player, .dict [])]
  let inner := match alistGet? ps1 player with
    | some (.dict es) => es
    | _ => []
  alistSet ps1 player (.dict (alistSet inner objective score))

/-- The loop over the PlayerScores child of `self.data` (source lines 86-99): extract
the player name, apply the filter, then extract objective and score and merge
them into the accumulated mapping. -/
def processScores (player_blacklist player_whitelist : List String)
    (include_dot_names : Bool) (acc : List (String × PyVal)) :
    List Nbt → Except PyErr (List (String × PyVal))
  | [] => .ok acc
  | entry :: rest => do
    let player_name ← asStr (← nbtValue (← nbtGet entry "Name"))
    if skipEntry player_blacklist player_whitelist include_dot_names player_name then
      processScores player_blacklist player_whitelist include_dot_names acc rest
    else
      let objective ← asStr (← nbtValue (← nbtGet entry "Objective"))
      let score ← nbtValue (← nbtGet entry "Score")
      processScores player_blacklist player_whitelist include_dot_names
        (addScore acc player_name objective score) rest

/-- The data-source dispatch of the constructor (source lines 52-99), after
the configuration check and filter-list loading: `wl` and `bl` are the
effective `self.player_whitelist` / `self.player_blacklist`. A suffix that is
neither `.json` nor `.dat` matches neither `if` of the source and leaves
every record attribute unset. -/
def Scoreboard.load (data_source : DataSource) (wl bl : List String)
    (include_dot_names : Bool) : Except PyErr Scoreboard :=
  match data_source with
    | .jsonFile doc => do
      let t ← pyGet doc "Teams"
      let o ← pyGet doc "Objectives"
      let p ← pyGet doc "PlayerScores"
      let d ← pyGet doc "DisplaySlots"
      .ok ⟨wl, bl, none, some t, some o, some p, some d⟩
    | .datFile root => do
      let data ← nbtGet root "data"
      let teams ← processTeams [] (← nbtItems (← nbtGet data "Teams"))
      let objectives ← processObjectives [] (← nbtItems (← nbtGet data "Objectives"))
      let display_slots ← processSlots (← nbtGet data "DisplaySlots")
      let player_scores ← processScores bl wl include_dot_names []
        (← nbtItems (← nbtGet data "PlayerScores"))
      .ok ⟨wl, bl, some data, some (.dict teams), some (.dict objectives),
        some (.dict player_scores), some (.dict display_slots)⟩
    | .otherFile => .ok ⟨wl, bl, none, none, none, none, none⟩

/-- Embedding of `Scoreboard.__init__` (source lines 21-99). Order of effects
follows the source: the whitelist/blacklist conflict check first (before any
file contents are consulted), then filter-list loading, then the data source
dispatch on the path suffix via `Scoreboard.load`. -/
def Scoreboard.init (data_source : DataSource)
    (player_whitelist : FilterArg := .pathArg "" [])
    (player_blacklist : FilterArg := .pathArg "" [])
    (include_dot_names : Bool := true) : Except PyErr Scoreboard :=
  if player_whitelist.truthy && player_blacklist.truthy then
    .error .valueError
  else
    Scoreboard.load data_source
      (if player_whitelist.truthy && player_whitelist.isPathLike then
        buildWhitelist player_whitelist.file else [])
      (if player_blacklist.truthy && player_blacklist.isPathLike then
        buildBlacklist player_blacklist.file else [])
      include_dot_names

/-- Embedding of the `__dict__` method (source lines 101-108): the four-key
serialization of the record. Reading an attribute the constructor never set
raises, modelled by `none`. -/
def Scoreboard.toDict (sb : Scoreboard) : Option PyVal := do
  let t ← sb.teams
  let o ← sb.objectives
  let p ← sb.player_scores
  let d ← sb.display_slots
  some (.dict [("Teams", t), ("Objectives", o), ("PlayerScores", p), ("DisplaySlots", d)])

/-! ### The ranking query `get_objective_scores` -/

/-- The inner loop of `get_objective_scores` (source lines 121-125): scan the
objectives of one player and take the score of the first match, then break. -/
def findTargetScore (target : String) : List (String × PyVal) → Option PyVal
  | [] => none
  | (obj, score) :: rest =>
    if obj = target then some score else findTargetScore target rest

/-- The outer loop of `get_objective_scores` (source lines 118-128): for each
player, start from the empty-dict placeholder, store the first matching score,
and afterwards pop the entry again if it is falsy (`if not
unsorted_scores[player]`) — so a player is kept exactly when a score was found
and that score is truthy. Iterating a non-dict objectives value raises. -/
def unsortedScores (target : String) :
    List (String × PyVal) → Except PyErr (List (String × PyVal))
  | [] => .ok []
  | (player, objs) :: rest =>
    match objs with
    | .dict es =>
      match findTargetScore target es with
      | some score =>
        if pyTruthy score then
          match unsortedScores target rest with
          | .ok tail => .ok ((player, score) :: tail)
          | .error e => .error e
        else unsortedScores target rest
      | none => unsortedScores target rest
    | _ => .error .attributeError

/-- Scores entering the final `sorted` call, as integers. Scoreboard scores
are ints; `sorted` comparing values of other types is modelled as the
`TypeError` CPython raises when it compares them. -/
def scoresAsInts : List (String × PyVal) → Except PyErr (List (String × Int))
  | [] => .ok []
  | (p, .int n) :: rest =>
    match scoresAsInts rest with
    | .ok tail => .ok ((p, n) :: tail)
    | .error e => .error e
  | _ => .error .typeError

/-- Python `sorted(items, key=lambda x: x[1], reverse=not ascending)`.
CPython sorting is stable, also under `reverse=True` (equal keys keep their
input order); it is modelled by Mathlib stable insertion sort on the score
component, with the flipped relation for the descending default. -/
def pySortScores (pairs : List (String × Int)) (ascending : Bool) :
    List (String × Int) :=
  if ascending then List.insertionSort (fun a b => a.2 ≤ b.2) pairs
  else List.insertionSort (fun a b => b.2 ≤ a.2) pairs

/-- Embedding of `Scoreboard.get_objective_scores` (source lines 110-131),
taking the entries of the `player_scores` dict. -/
def get_objective_scores (player_scores : List (String × PyVal))
    (target_objective : String) (ascending : Bool := false) :
    Except PyErr (List (String × Int)) := do
  let unsorted ← unsortedScores target_objective player_scores
  let pairs ← scoresAsInts unsorted
  .ok (pySortScores pairs ascending)

example :
    get_objective_scores
      [("a", .dict [("h", .int 1), ("k", .int 9)]), ("b", .dict [("h", .int 2)]),
       ("c", .dict [("k", .int 5)])] "h" false
    = .ok [("b", 2), ("a", 1)] := rfl

example :
    get_objective_scores
      [("a", .dict [("h", .int 1)]), ("b", .dict [("h", .int 2)])] "h" true
    = .ok [("a", 1), ("b", 2)] := rfl

/-! ### Concrete fixtures used by the claim theorems -/

/-- Fixture: a PlayerScores entry tag with the given player, objective, score. -/
def scoreEntryTag (p o : String) (s : Int) : Nbt :=
  .compound [("Name", .scalar (.str p)), ("Objective", .scalar (.str o)),
    ("Score", .scalar (.int s))]

/-- Fixture: the `data` compound of a scoreboard with no teams, objectives or
display slots and the given score entries. -/
def scoresData (entries : List Nbt) : Nbt :=
  .compound [("Teams", .nlist []), ("Objectives", .nlist []),
    ("DisplaySlots", .compound []), ("PlayerScores", .nlist entries)]

/-- Fixture: an NBT root wrapping `scoresData`. -/
def scoresRoot (entries : List Nbt) : Nbt := .compound [("data", scoresData entries)]

/-- Fixture: a team tag with fixed scalar attributes, one member, and the
given display-name string. -/
def teamTag (dn : String) : Nbt :=
  .compound [("Name", .scalar (.str "team1")),
    ("DeathMessageVisibility", .scalar (.str "always")),
    ("TeamColor", .scalar (.str "white")),
    ("SeeFriendlyInvisibles", .scalar (.int 1)),
    ("CollisionRule", .scalar (.str "always")),
    ("AllowFriendlyFire", .scalar (.int 1)),
    ("MemberNamePrefix", .scalar (.str "")),
    ("NameTagVisibility", .scalar (.str "always")),
    ("MemberNameSuffix", .scalar (.str "")),
    ("Players", .nlist [.scalar (.str "alice")]),
    ("DisplayName", .scalar (.str dn))]

/-- Fixture: an objective tag with the given criteria, render type and
display-name string. -/
def objTag (dn c r : String) : Nbt :=
  .compound [("Name", .scalar (.str "obj1")),
    ("CriteriaName", .scalar (.str c)),
    ("RenderType", .scalar (.str r)),
    ("DisplayName", .scalar (.str dn))]

/-- Fixture: a `data` compound holding one team and one objective that share
the display-name string `dn`, and nothing else. -/
def displayData (dn c r : String) : Nbt :=
  .compound [("Teams", .nlist [teamTag dn]),
    ("Objectives", .nlist [objTag dn c r]),
    ("DisplaySlots", .compound []), ("PlayerScores", .nlist [])]

/-- Fixture: an NBT root wrapping `displayData`. -/
def displayRoot (dn c r : String) : Nbt := .compound [("data", displayData dn c r)]

/-- The dict the parser builds for `teamTag dn` when `json.loads dn`
returns `v`. -/
def teamTagValue (dn : String) (v : PyVal) : PyVal :=
  .dict [("DeathMessageVisibility", .str "always"), ("TeamColor", .str "white"),
    ("SeeFriendlyInvisibles", .int 1), ("CollisionRule", .str "always"),
    ("AllowFriendlyFire", .int 1), ("MemberNamePrefix", .str ""),
    ("NameTagVisibility", .str "always"), ("MemberNameSuffix", .str ""),
    ("Players", .list [.str "alice"]),
    ("DisplayName", .dict [("json_dict", v), ("json_string", .str dn)])]

/-- The dict the parser builds for `objTag dn c r` when `json.loads dn`
returns `v`. -/
def objTagValue (dn c r : String) (v : PyVal) : PyVal :=
  .dict [("CriteriaName", .str c), ("RenderType", .str r),
    ("DisplayName", .dict [("json_dict", v), ("json_string", .str dn)])]

/-- Lookup of one score in a player-scores mapping: the value stored for
objective `o` under player `p`, when present. -/
def scoreLookup (ps : List (String × PyVal)) (p o : String) : Option PyVal :=
  match alistGet? ps p with
  | some (.dict es) => alistGet? es o
  | _ => none

/-- Whether an embedded Python computation finished without raising. -/
def exceptOk {α : Type} : Except PyErr α → Bool
  | .ok _ => true
  | .error _ => false

/-- The computation does not raise the whitelist/blacklist configuration
`ValueError`; the parsing helpers only ever raise the other error kinds. -/
def noConfigErr {α : Type} (x : Except PyErr α) : Prop := x ≠ .error .valueError

/-! ### Claim theorems -/

/-- C1 (code bug): with an active whitelist containing only `alice` and
`include_dot_names = false`, the score entry of `bob` — who is not
whitelisted and whose name does not start with a dot — is nevertheless merged
into `player_scores`: the condition on source line 91 conjoins the whitelist
miss with `include_dot_names`, so a false flag disables whitelist filtering
entirely, contradicting the constructor docstring. -/
theorem C1_whitelist_inert_when_dot_names_off :
    Scoreboard.init (.datFile (scoresRoot [scoreEntryTag "bob" "kills" 3]))
      (.pathArg "whitelist.json"
        [⟨"11111111-2222-3333-4444-555555555555", "alice"⟩])
      (.pathArg "" []) false
    = .ok ⟨["alice"], [], some (scoresData [scoreEntryTag "bob" "kills" 3]),
        some (.dict []), some (.dict []),
        some (.dict [("bob", .dict [("kills", .int 3)])]),
        some (.dict [])⟩ := rfl

/-- C2 (code bug): a player whose stored score for the target objective is 0
is dropped from the ranking result: line 127 tests the found value for
truthiness, and the int 0 is falsy, although the per-player mapping does hold
the objective with score 0 (second conjunct). -/
theorem C2_zero_score_dropped :
    get_objective_scores [("alice", .dict [("health", .int 0)])] "health" false
      = .ok []
    ∧ findTargetScore "health" [("health", .int 0)] = some (.int 0) :=
  ⟨rfl, rfl⟩

/-- C3 (counterexample): a display-name string with no quoted key/value
patterns does not degrade to an absent parsed mapping — `json.loads` raises,
and parsing the whole source fails with that exception, contrary to the
claimed no-exception best-effort scan. -/
theorem C3_cex_plain_display_name_raises :
    Scoreboard.init (.datFile (displayRoot "hello" "crit" "integer"))
      (.pathArg "" []) (.pathArg "" []) true
    = .error .jsonDecodeError := rfl

/-- C4 (counterexample): a source whose suffix is neither `.json` nor `.dat`
is not rejected: construction succeeds, raising nothing, and yields an object
with none of the four record attributes set, contrary to the claimed
FormatError for a source in neither recognized format. -/
theorem C4_cex_unrecognized_suffix_accepted :
    Scoreboard.init .otherFile (.pathArg "" []) (.pathArg "" []) true
    = .ok ⟨[], [], none, none, none, none, none⟩ := rfl

/-- C5 (counterexample): a blacklist file entry whose uuid starts with the
all-zero offline prefix is NOT excluded: the blacklist loading loop (source
lines 46-47) has no uuid check, so `dummy` lands in the effective filter set,
contrary to the claim that the exclusion applies to either kind of filter
list. -/
theorem C5_cex_blacklist_keeps_offline_uuid :
    Scoreboard.init .otherFile (.pathArg "" [])
      (.pathArg "blacklist.json"
        [⟨"00000000-0000-0000-0000-000000000001", "dummy"⟩]) true
    = .ok ⟨[], ["dummy"], none, none, none, none, none⟩ := rfl

/-- The whitelist loading loop, rephrased: appending names of non-offline
entries to `acc` is `acc` followed by the filtered, projected file. -/
theorem foldl_whitelist (file : List WlEntry) (acc : List String) :
    file.foldl (fun a e => if offlineUuid e.uuid then a else a ++ [e.name]) acc
      = acc ++ (file.filter (fun e => !offlineUuid e.uuid)).map (fun e => e.name) := by
  induction file generalizing acc with
  | nil => simp
  | cons e rest ih =>
    cases h : offlineUuid e.uuid <;>
      simp [List.filter_cons, h, ih]

/-- The blacklist loading loop, rephrased: appending every name to `acc` is
`acc` followed by the projected file. -/
theorem foldl_blacklist (file : List WlEntry) (acc : List String) :
    file.foldl (fun a e => a ++ [e.name]) acc = acc ++ file.map (fun e => e.name) := by
  induction file generalizing acc with
  | nil => simp
  | cons e rest ih => simp [ih]

/-- C5 (amended): when a WHITELIST is constructed from a filter-list JSON
file, entries whose uuid begins with `00000000-0000-0000-` are excluded and
every other entry name is included; a BLACKLIST constructed from such a file
includes every entry name with no uuid exclusion. -/
theorem C5_offline_uuid_excluded_only_from_whitelist (path : String)
    (file : List WlEntry) (h : path ≠ "") :
    (Scoreboard.init .otherFile (.pathArg path file) (.pathArg "" []) true
      = .ok ⟨(file.filter (fun e => !offlineUuid e.uuid)).map (fun e => e.name),
          [], none, none, none, none, none⟩)
    ∧ (Scoreboard.init .otherFile (.pathArg "" []) (.pathArg path file) true
      = .ok ⟨[], file.map (fun e => e.name), none, none, none, none, none⟩) := by
  have hp : (path != "") = true := by simpa using h
  constructor <;>
    simp [Scoreboard.init, Scoreboard.load, FilterArg.truthy, FilterArg.isPathLike,
      FilterArg.file, hp, buildWhitelist, buildBlacklist, foldl_whitelist,
      foldl_blacklist]

/-- Witness for C5 at a concrete two-entry file: the offline-uuid entry is
excluded from the whitelist and `carol` is kept. -/
theorem C5_offline_uuid_witness :
    Scoreboard.init .otherFile
      (.pathArg "whitelist.json"
        [⟨"00000000-0000-0000-0000-000000000002", "dummy2"⟩,
         ⟨"22222222-2222-2222-2222-222222222222", "carol"⟩])
      (.pathArg "" []) true
    = .ok ⟨([(⟨"00000000-0000-0000-0000-000000000002", "dummy2"⟩ : WlEntry),
         ⟨"22222222-2222-2222-2222-222222222222", "carol"⟩].filter
           (fun e => !offlineUuid e.uuid)).map (fun e => e.name),
        [], none, none, none, none, none⟩ :=
  (C5_offline_uuid_excluded_only_from_whitelist "whitelist.json" _ (by decide)).1

/-- C3 (amended): the display-name string of a team or objective tag is
passed through `json.loads` whole: when it is valid JSON the full decoded
value `v` — nested or array-valued components intact — is stored under
`json_dict` next to the raw string under `json_string`; when it is not valid
JSON, parsing the source fails with the decode exception. -/
theorem C3_display_name_is_full_json_decode (dn c r : String) :
    Scoreboard.init (.datFile (displayRoot dn c r)) (.pathArg "" []) (.pathArg "" []) true
    = match jsonLoads dn with
      | .error e => .error e
      | .ok v => .ok ⟨[], [], some (displayData dn c r),
          some (.dict [("team1", teamTagValue dn v)]),
          some (.dict [("obj1", objTagValue dn c r v)]),
          some (.dict []), some (.dict [])⟩ := by
  cases h : jsonLoads dn with
  | ok v =>
    simp [Scoreboard.init, Scoreboard.load, FilterArg.truthy, displayRoot, displayData, teamTag, objTag,
      teamTagValue, objTagValue, processTeams, processObjectives, teamValue,
      objectiveValue, nbtGet, nbtValue, nbtItems, nbtValues, asStr, alistGet?,
      alistSet, processSlots, slotsValues, processScores, pyGet, h,
      Bind.bind, Except.bind]
  | error e =>
    simp [Scoreboard.init, Scoreboard.load, FilterArg.truthy, displayRoot, displayData, teamTag, objTag,
      processTeams, teamValue, nbtGet, nbtValue, nbtItems, nbtValues, asStr,
      alistGet?, h, Bind.bind, Except.bind]

/-- C4 (amended): a `.json` source constructs successfully exactly when the
decoded document yields all four required top-level keys (a missing key or a
non-dict document raises, and no record is produced); a `.dat` source whose
root has no `data` child fails; a source with an unrecognized suffix is
accepted silently with none of the four record attributes set. -/
theorem C4_top_level_shape_errors :
    (∀ (doc : PyVal) (idn : Bool),
      exceptOk (Scoreboard.init (.jsonFile doc) (.pathArg "" []) (.pathArg "" []) idn) = true
      ↔ (exceptOk (pyGet doc "Teams") = true ∧ exceptOk (pyGet doc "Objectives") = true ∧
         exceptOk (pyGet doc "PlayerScores") = true ∧ exceptOk (pyGet doc "DisplaySlots") = true))
    ∧ (∀ (root : Nbt) (idn : Bool), exceptOk (nbtGet root "data") = false →
      exceptOk (Scoreboard.init (.datFile root) (.pathArg "" []) (.pathArg "" []) idn) = false)
    ∧ (∀ idn : Bool, Scoreboard.init .otherFile (.pathArg "" []) (.pathArg "" []) idn
        = .ok ⟨[], [], none, none, none, none, none⟩) := by
  refine ⟨fun doc idn => ?_, fun root idn h => ?_, fun idn => rfl⟩
  · cases h1 : pyGet doc "Teams" <;> cases h2 : pyGet doc "Objectives" <;>
      cases h3 : pyGet doc "PlayerScores" <;> cases h4 : pyGet doc "DisplaySlots" <;>
      simp [Scoreboard.init, Scoreboard.load, FilterArg.truthy, h1, h2, h3, h4,
        Bind.bind, Except.bind, exceptOk]
  · cases hr : nbtGet root "data" with
    | ok d => simp [hr, exceptOk] at h
    | error e =>
      simp [Scoreboard.init, Scoreboard.load, FilterArg.truthy, hr, Bind.bind,
        Except.bind, exceptOk]

/-- Witness for C4 at concrete ill-shaped sources: a JSON document with only
the `Teams` key fails, and a `.dat` root without a `data` child fails. -/
theorem C4_top_level_shape_witness :
    exceptOk (Scoreboard.init (.datFile (.compound []))
      (.pathArg "" []) (.pathArg "" []) true) = false :=
  C4_top_level_shape_errors.2.1 (.compound []) true (by rfl)

/-! ### No helper raises the configuration `ValueError` (for C8) -/

/-- Binding preserves freedom from the configuration error. -/
theorem noConfigErr_bind {α β : Type} {x : Except PyErr α} {f : α → Except PyErr β}
    (hx : noConfigErr x) (hf : ∀ a, noConfigErr (f a)) : noConfigErr (x >>= f) := by
  cases x with
  | ok a => simpa [Bind.bind, Except.bind] using hf a
  | error e =>
    simp only [noConfigErr, Bind.bind, Except.bind]
    intro hcontra
    injection hcontra with h2
    exact hx (by rw [h2])

theorem nbtGet_noVE (t : Nbt) (k : String) : noConfigErr (nbtGet t k) := by
  cases t with
  | compound es => cases h : alistGet? es k <;> simp [nbtGet, noConfigErr, h]
  | scalar v => simp [nbtGet, noConfigErr]
  | nlist items => simp [nbtGet, noConfigErr]

theorem nbtValue_noVE (t : Nbt) : noConfigErr (nbtValue t) := by
  cases t <;> simp [nbtValue, noConfigErr]

theorem nbtItems_noVE (t : Nbt) : noConfigErr (nbtItems t) := by
  cases t <;> simp [nbtItems, noConfigErr]

theorem asStr_noVE (v : PyVal) : noConfigErr (asStr v) := by
  cases v <;> simp [asStr, noConfigErr]

theorem pyGet_noVE (v : PyVal) (k : String) : noConfigErr (pyGet v k) := by
  cases v with
  | dict es => cases h : alistGet? es k <;> simp [pyGet, noConfigErr, h]
  | str s => simp [pyGet, noConfigErr]
  | int n => simp [pyGet, noConfigErr]
  | bool b => simp [pyGet, noConfigErr]
  | null => simp [pyGet, noConfigErr]
  | list items => simp [pyGet, noConfigErr]

/-- Every error of the JSON string scanner is a decode error. -/
theorem jsonStringRest_err (cs : List Char) (e : PyErr)
    (h : jsonStringRest cs = .error e) : e = .jsonDecodeError := by
  induction cs using jsonStringRest.induct <;>
    rw [jsonStringRest.eq_def] at h <;> simp_all

/-- Every error of the JSON number scanner is a decode error. -/
theorem jsonNumber_err (cs : List Char) (e : PyErr)
    (h : jsonNumber cs = .error e) : e = .jsonDecodeError := by
  simp only [jsonNumber] at h
  repeat' split at h
  all_goals simp_all

theorem jsonStringRest_noVE (cs : List Char) :
    jsonStringRest cs ≠ .error .valueError := fun h => by
  have := jsonStringRest_err cs _ h
  simp_all

theorem jsonNumber_noVE (cs : List Char) :
    jsonNumber cs ≠ .error .valueError := fun h => by
  have := jsonNumber_err cs _ h
  simp_all

set_option maxHeartbeats 800000 in
/-- The fuelled JSON parser never raises the configuration error. -/
theorem json_noVE (fuel : Nat) :
    (∀ cs, jsonVal fuel cs ≠ .error .valueError)
    ∧ (∀ cs, jsonMembers fuel cs ≠ .error .valueError)
    ∧ (∀ cs, jsonItems fuel cs ≠ .error .valueError) := by
  induction fuel with
  | zero =>
    refine ⟨fun cs => ?_, fun cs => ?_, fun cs => ?_⟩ <;>
      simp [jsonVal, jsonMembers, jsonItems]
  | succ n ih =>
    obtain ⟨ihv, ihm, ihi⟩ := ih
    have hsr := jsonStringRest_noVE
    refine ⟨fun cs h => ?_, fun cs h => ?_, fun cs h => ?_⟩
    · simp only [jsonVal] at h
      repeat' split at h
      all_goals first
        | exact jsonNumber_noVE _ h
        | simp_all
    · simp only [jsonMembers] at h
      repeat' split at h
      all_goals simp_all
    · simp only [jsonItems] at h
      repeat' split at h
      all_goals simp_all

theorem jsonLoads_noVE (s : String) : noConfigErr (jsonLoads s) := by
  intro h
  rw [jsonLoads] at h
  split at h
  · split at h <;> simp_all
  · injection h with h2
    subst h2
    exact (json_noVE (s.length + 1)).1 _ (by assumption)

theorem nbtValues_noVE : ∀ ts : List Nbt, noConfigErr (nbtValues ts)
  | [] => by simp [nbtValues, noConfigErr]
  | t :: rest => by
    simp only [nbtValues]
    exact noConfigErr_bind (nbtValue_noVE t) fun v =>
      noConfigErr_bind (nbtValues_noVE rest) fun vs => by simp [noConfigErr]

theorem teamValue_noVE (team : Nbt) : noConfigErr (teamValue team) := by
  simp only [teamValue]
  repeat'
    first
    | exact nbtGet_noVE _ _
    | exact nbtValue_noVE _
    | exact nbtItems_noVE _
    | exact asStr_noVE _
    | exact nbtValues_noVE _
    | exact jsonLoads_noVE _
    | (refine noConfigErr_bind ?_ fun a => ?_)
    | simp [noConfigErr]

theorem objectiveValue_noVE (obj : Nbt) : noConfigErr (objectiveValue obj) := by
  simp only [objectiveValue]
  repeat'
    first
    | exact nbtGet_noVE _ _
    | exact nbtValue_noVE _
    | exact asStr_noVE _
    | exact jsonLoads_noVE _
    | (refine noConfigErr_bind ?_ fun a => ?_)
    | simp [noConfigErr]

theorem processTeams_noVE : ∀ (teams : List Nbt) (acc : List (String × PyVal)),
    noConfigErr (processTeams acc teams)
  | [], acc => by simp [processTeams, noConfigErr]
  | team :: rest, acc => by
    simp only [processTeams]
    refine noConfigErr_bind (teamValue_noVE team) fun v => ?_
    refine noConfigErr_bind (nbtGet_noVE _ _) fun a => ?_
    refine noConfigErr_bind (nbtValue_noVE _) fun b => ?_
    refine noConfigErr_bind (asStr_noVE _) fun name => ?_
    exact processTeams_noVE rest _

theorem processObjectives_noVE : ∀ (objs : List Nbt) (acc : List (String × PyVal)),
    noConfigErr (processObjectives acc objs)
  | [], acc => by simp [processObjectives, noConfigErr]
  | obj :: rest, acc => by
    simp only [processObjectives]
    refine noConfigErr_bind (objectiveValue_noVE obj) fun v => ?_
    refine noConfigErr_bind (nbtGet_noVE _ _) fun a => ?_
    refine noConfigErr_bind (nbtValue_noVE _) fun b => ?_
    refine noConfigErr_bind (asStr_noVE _) fun name => ?_
    exact processObjectives_noVE rest _

theorem slotsValues_noVE : ∀ es : List (String × Nbt), noConfigErr (slotsValues es)
  | [] => by simp [slotsValues, noConfigErr]
  | (slot, obj) :: rest => by
    simp only [slotsValues]
    refine noConfigErr_bind (nbtValue_noVE _) fun v => ?_
    refine noConfigErr_bind (slotsValues_noVE rest) fun vs => ?_
    simp [noConfigErr]

theorem processSlots_noVE (t : Nbt) : noConfigErr (processSlots t) := by
  cases t with
  | compound es => exact slotsValues_noVE es
  | scalar v => simp [processSlots, noConfigErr]
  | nlist items => simp [processSlots, noConfigErr]

theorem processScores_noVE (bl wl : List String) (idn : Bool) :
    ∀ (entries : List Nbt) (acc : List (String × PyVal)),
      noConfigErr (processScores bl wl idn acc entries)
  | [], acc => by simp [processScores, noConfigErr]
  | entry :: rest, acc => by
    simp only [processScores]
    refine noConfigErr_bind (nbtGet_noVE _ _) fun a => ?_
    refine noConfigErr_bind (nbtValue_noVE _) fun v => ?_
    refine noConfigErr_bind (asStr_noVE _) fun name => ?_
    split
    · exact processScores_noVE bl wl idn rest acc
    · refine noConfigErr_bind (nbtGet_noVE _ _) fun a2 => ?_
      refine noConfigErr_bind (nbtValue_noVE _) fun v2 => ?_
      refine noConfigErr_bind (asStr_noVE _) fun objective => ?_
      refine noConfigErr_bind (nbtGet_noVE _ _) fun a3 => ?_
      refine noConfigErr_bind (nbtValue_noVE _) fun score => ?_
      exact processScores_noVE bl wl idn rest _

/-- The data-source dispatch never raises the configuration error: every
error it can produce is a key/type/attribute/decode error. -/
theorem load_noVE (src : DataSource) (wl bl : List String) (idn : Bool) :
    noConfigErr (Scoreboard.load src wl bl idn) := by
  cases src with
  | jsonFile doc =>
    simp only [Scoreboard.load]
    refine noConfigErr_bind (pyGet_noVE _ _) fun t => ?_
    refine noConfigErr_bind (pyGet_noVE _ _) fun o => ?_
    refine noConfigErr_bind (pyGet_noVE _ _) fun p => ?_
    refine noConfigErr_bind (pyGet_noVE _ _) fun d => ?_
    simp [noConfigErr]
  | datFile root =>
    simp only [Scoreboard.load]
    refine noConfigErr_bind (nbtGet_noVE _ _) fun data => ?_
    refine noConfigErr_bind (nbtGet_noVE _ _) fun tt => ?_
    refine noConfigErr_bind (nbtItems_noVE _) fun ts => ?_
    refine noConfigErr_bind (processTeams_noVE _ _) fun teams => ?_
    refine noConfigErr_bind (nbtGet_noVE _ _) fun ot => ?_
    refine noConfigErr_bind (nbtItems_noVE _) fun os => ?_
    refine noConfigErr_bind (processObjectives_noVE _ _) fun objectives => ?_
    refine noConfigErr_bind (nbtGet_noVE _ _) fun dt => ?_
    refine noConfigErr_bind (processSlots_noVE _) fun display_slots => ?_
    refine noConfigErr_bind (nbtGet_noVE _ _) fun pt => ?_
    refine noConfigErr_bind (nbtItems_noVE _) fun ps => ?_
    refine noConfigErr_bind (processScores_noVE _ _ _ _ _) fun player_scores => ?_
    simp [noConfigErr]
  | otherFile => simp [Scoreboard.load, noConfigErr]

/-- C8: the configuration `ValueError` is raised if and only if both filter
arguments are truthy (a non-empty whitelist and a non-empty blacklist). The
forward direction quantifies over arbitrary file contents inside the filter
arguments and over the data source, so the error does not depend on any file
contents: it fires before any file is consulted and no record is produced;
and with at most one filter supplied, this error is never raised. -/
theorem C8_config_error_iff_both_filters (src : DataSource) (wl bl : FilterArg)
    (idn : Bool) :
    Scoreboard.init src wl bl idn = .error .valueError
    ↔ (wl.truthy = true ∧ bl.truthy = true) := by
  rw [Scoreboard.init]
  cases hw : wl.truthy <;> cases hb : bl.truthy <;> simp [hw, hb]
  all_goals exact load_noVE _ _ _ _

/-- Witness for C8: two non-empty list arguments raise the configuration
error on any source; with only one of them, construction succeeds. -/
theorem C8_config_error_witness :
    Scoreboard.init .otherFile (.listArg ["alice"]) (.listArg ["bob"]) true
      = .error .valueError :=
  (C8_config_error_iff_both_filters .otherFile (.listArg ["alice"])
    (.listArg ["bob"]) true).mpr ⟨rfl, rfl⟩

/-! ### Dict update lemmas and last-write-wins (for C7, C10) -/

theorem alistGet?_set_self {V : Type} (l : List (String × V)) (k : String) (v : V) :
    alistGet? (alistSet l k v) k = some v := by
  induction l with
  | nil => simp [alistSet, alistGet?]
  | cons kv rest ih =>
    obtain ⟨k1, w⟩ := kv
    by_cases h : k1 = k <;> simp [alistSet, alistGet?, h, ih]

theorem alistGet?_set_ne {V : Type} (l : List (String × V)) (k : String) (v : V)
    (k2 : String) (h : k ≠ k2) : alistGet? (alistSet l k v) k2 = alistGet? l k2 := by
  induction l with
  | nil => simp [alistSet, alistGet?, h]
  | cons kv rest ih =>
    obtain ⟨k1, w⟩ := kv
    by_cases h1 : k1 = k <;> simp [alistSet, alistGet?, h1, h, ih]

theorem alistGet?_append_single {V : Type} (l : List (String × V)) (k : String)
    (v : V) (k2 : String) :
    alistGet? (l ++ [(k, v)]) k2
    = match alistGet? l k2 with
      | some w => some w
      | none => if k = k2 then some v else none := by
  induction l with
  | nil => simp [alistGet?]
  | cons kv rest ih =>
    obtain ⟨k1, w⟩ := kv
    by_cases h1 : k1 = k2 <;> simp [alistGet?, h1, ih]

/-- The effect of one merged score entry on a later lookup: the exact
(player, objective) pair now maps to the new score, every other pair is
unchanged. -/
theorem scoreLookup_addScore (ps : List (String × PyVal)) (p o : String)
    (sc : PyVal) (p2 o2 : String) :
    scoreLookup (addScore ps p o sc) p2 o2
    = if p = p2 ∧ o = o2 then some sc else scoreLookup ps p2 o2 := by
  by_cases hp : p = p2
  · subst hp
    by_cases ho : o = o2
    · subst ho
      cases hg : alistGet? ps p with
      | none =>
        simp [addScore, scoreLookup, hg, alistGet?_append_single, alistGet?_set_self]
      | some w =>
        cases w <;> simp [addScore, scoreLookup, hg, alistGet?_set_self]
    · cases hg : alistGet? ps p with
      | none =>
        simp [addScore, scoreLookup, hg, alistGet?_append_single, alistGet?_set_self,
          alistGet?_set_ne _ _ _ _ ho, alistGet?, ho]
      | some w =>
        cases w <;>
          simp [addScore, scoreLookup, hg, alistGet?_set_self,
            alistGet?_set_ne _ _ _ _ ho, alistGet?, ho]
  · have hcond : ¬(p = p2 ∧ o = o2) := fun hc => hp hc.1
    rw [if_neg hcond]
    cases hg : alistGet? ps p with
    | none =>
      cases hg2 : alistGet? ps p2 <;>
        simp [addScore, scoreLookup, hg, hg2, alistGet?_append_single,
          alistGet?_set_ne _ _ _ _ hp, hp]
    | some w =>
      simp [addScore, scoreLookup, hg, alistGet?_set_ne _ _ _ _ hp]

/-- `getLast?` of a cons cell, in `getD` form. -/
theorem getLast?_cons_form {α : Type} (a : α) (l : List α) :
    (a :: l).getLast? = some (l.getLast?.getD a) := by
  induction l generalizing a with
  | nil => rfl
  | cons b m ih => simp [List.getLast?_cons_cons, ih b]

/-- On well-formed score entry tags the PlayerScores loop never fails and is
the left fold of the filter-then-merge step over the triples. -/
theorem processScores_cons_entry (bl wl : List String) (idn : Bool)
    (acc : List (String × PyVal)) (p o : String) (sc : Int) (rest : List Nbt) :
    processScores bl wl idn acc (scoreEntryTag p o sc :: rest)
    = if skipEntry bl wl idn p then processScores bl wl idn acc rest
      else processScores bl wl idn (addScore acc p o (.int sc)) rest := by
  cases hsk : skipEntry bl wl idn p <;>
    simp [processScores, scoreEntryTag, nbtGet, nbtValue, asStr, alistGet?, hsk,
      Bind.bind, Except.bind]

theorem processScores_encoded (bl wl : List String) (idn : Bool) :
    ∀ (ts : List (String × String × Int)) (acc : List (String × PyVal)),
    processScores bl wl idn acc (ts.map (fun t => scoreEntryTag t.1 t.2.1 t.2.2))
    = .ok (ts.foldl (fun a t => if skipEntry bl wl idn t.1 then a
        else addScore a t.1 t.2.1 (PyVal.int t.2.2)) acc)
  | [], acc => by simp [processScores]
  | t :: rest, acc => by
    have ih := processScores_encoded bl wl idn rest
    rw [List.map_cons, processScores_cons_entry, List.foldl_cons]
    cases hsk : skipEntry bl wl idn t.1 <;> simp [hsk, ih]

/-- Looking up one (player, objective) pair after the fold yields the score
of the last matching accepted triple, or the accumulator value when none
matches. -/
theorem scoreLookup_fold (bl wl : List String) (idn : Bool) (p o : String) :
    ∀ (ts : List (String × String × Int)) (acc : List (String × PyVal)),
    scoreLookup (ts.foldl (fun a t => if skipEntry bl wl idn t.1 then a
        else addScore a t.1 t.2.1 (PyVal.int t.2.2)) acc) p o
    = match (ts.filter (fun t =>
        !skipEntry bl wl idn t.1 && (t.1 == p && t.2.1 == o))).getLast? with
      | some t => some (PyVal.int t.2.2)
      | none => scoreLookup acc p o
  | [], acc => by simp
  | t :: rest, acc => by
    obtain ⟨tp, tobj, tsc⟩ := t
    have ih := scoreLookup_fold bl wl idn p o rest
    cases hsk : skipEntry bl wl idn tp with
    | true => simp [List.filter_cons, hsk, ih acc]
    | false =>
      by_cases hm : tp = p ∧ tobj = o
      · obtain ⟨hp1, ho1⟩ := hm
        subst hp1
        subst ho1
        rw [List.foldl_cons, if_neg (by simp [hsk])]
        rw [ih (addScore acc tp tobj (PyVal.int tsc))]
        rw [List.filter_cons, if_pos (by simp [hsk])]
        rw [getLast?_cons_form]
        cases hlast : (rest.filter (fun t =>
            !skipEntry bl wl idn t.1 && (t.1 == tp && t.2.1 == tobj))).getLast? <;>
          simp [hlast, scoreLookup_addScore]
      · rw [List.foldl_cons, if_neg (by simp [hsk])]
        rw [ih (addScore acc tp tobj (PyVal.int tsc))]
        have hq : (!skipEntry bl wl idn tp && (tp == p && tobj == o)) = false := by
          rcases not_and_or.mp hm with h1 | h1 <;> simp [h1, hsk]
        rw [List.filter_cons, if_neg (by simp [hq])]
        cases hlast : (rest.filter (fun t =>
            !skipEntry bl wl idn t.1 && (t.1 == p && t.2.1 == o))).getLast? <;>
          simp [hlast, scoreLookup_addScore, hm]

/-- C7: merging is last-write-wins. For every list of (player, objective,
score) triples fed to the PlayerScores loop (source lines 86-99) under any
filter lists, the final mapping holds, for each (player, objective) pair,
exactly the score of the LAST accepted entry in source order for that pair —
`none` when no accepted entry matches. -/
theorem C7_last_write_wins (bl wl : List String) (idn : Bool)
    (ts : List (String × String × Int)) (p o : String) :
    (processScores bl wl idn [] (ts.map (fun t => scoreEntryTag t.1 t.2.1 t.2.2))).map
      (fun l => scoreLookup l p o)
    = .ok (match (ts.filter (fun t =>
        !skipEntry bl wl idn t.1 && (t.1 == p && t.2.1 == o))).getLast? with
      | some t => some (PyVal.int t.2.2)
      | none => none) := by
  rw [processScores_encoded]
  rw [Except.map]
  rw [scoreLookup_fold]
  cases hlast : (ts.filter (fun t =>
      !skipEntry bl wl idn t.1 && (t.1 == p && t.2.1 == o))).getLast? <;>
    simp [hlast, scoreLookup, alistGet?]

/-! ### Inversion of successful runs (for C9, C10) -/

theorem bind_ok_inv {α β : Type} {x : Except PyErr α} {f : α → Except PyErr β} {b : β}
    (h : x >>= f = .ok b) : ∃ a, x = .ok a ∧ f a = .ok b := by
  cases x with
  | ok a => exact ⟨a, rfl, by simpa [Bind.bind, Except.bind] using h⟩
  | error e => simp [Bind.bind, Except.bind] at h

theorem alistSet_ne_nil {V : Type} (l : List (String × V)) (k : String) (v : V) :
    alistSet l k v ≠ [] := by
  cases l with
  | nil => simp [alistSet]
  | cons kv rest =>
    obtain ⟨k1, w⟩ := kv
    by_cases h : k1 = k <;> simp [alistSet, h]

/-- Merging a score preserves the invariant that every stored player value is
a non-empty dict. -/
theorem addScore_preserves (ps : List (String × PyVal)) (p o : String) (sc : PyVal)
    (hinv : ∀ p2 v, alistGet? ps p2 = some v → ∃ es, v = .dict es ∧ es ≠ []) :
    ∀ p2 v, alistGet? (addScore ps p o sc) p2 = some v →
      ∃ es, v = .dict es ∧ es ≠ [] := by
  intro p2 v hv
  simp only [addScore] at hv
  by_cases hp : p = p2
  · subst hp
    simp only [alistGet?_set_self, Option.some.injEq] at hv
    subst hv
    exact ⟨_, rfl, alistSet_ne_nil _ _ _⟩
  · rw [alistGet?_set_ne _ _ _ _ hp] at hv
    cases hg : alistGet? ps p with
    | some w =>
      simp only [hg] at hv
      exact hinv p2 v hv
    | none =>
      simp only [hg] at hv
      rw [alistGet?_append_single] at hv
      cases hg2 : alistGet? ps p2 with
      | some w =>
        simp only [hg2] at hv
        obtain rfl := Option.some.inj hv
        exact hinv p2 _ hg2
      | none => simp [hg2, hp] at hv

/-- The PlayerScores loop preserves the non-empty-dict invariant. -/
theorem processScores_nonempty (bl wl : List String) (idn : Bool) :
    ∀ (entries : List Nbt) (acc l : List (String × PyVal)),
    (∀ p v, alistGet? acc p = some v → ∃ es, v = .dict es ∧ es ≠ []) →
    processScores bl wl idn acc entries = .ok l →
    ∀ p v, alistGet? l p = some v → ∃ es, v = .dict es ∧ es ≠ []
  | [], acc, l, hinv, h => by
    simp only [processScores, Except.ok.injEq] at h
    subst h
    exact hinv
  | entry :: rest, acc, l, hinv, h => by
    simp only [processScores] at h
    obtain ⟨a, ha, h⟩ := bind_ok_inv h
    obtain ⟨v1, hv1, h⟩ := bind_ok_inv h
    obtain ⟨name, hname, h⟩ := bind_ok_inv h
    split at h
    · exact processScores_nonempty bl wl idn rest acc l hinv h
    · obtain ⟨a2, ha2, h⟩ := bind_ok_inv h
      obtain ⟨v2, hv2, h⟩ := bind_ok_inv h
      obtain ⟨objective, hobj, h⟩ := bind_ok_inv h
      obtain ⟨a3, ha3, h⟩ := bind_ok_inv h
      obtain ⟨score, hscore, h⟩ := bind_ok_inv h
      exact processScores_nonempty bl wl idn rest _ l
        (addScore_preserves _ _ _ _ hinv) h

/-- A successful constructor run factors through `Scoreboard.load` applied to
the effective filter lists. -/
theorem init_ok_load (src : DataSource) (wl bl : FilterArg) (idn : Bool)
    (sb : Scoreboard) (h : Scoreboard.init src wl bl idn = .ok sb) :
    Scoreboard.load src
      (if wl.truthy && wl.isPathLike then buildWhitelist wl.file else [])
      (if bl.truthy && bl.isPathLike then buildBlacklist bl.file else [])
      idn = .ok sb := by
  rw [Scoreboard.init] at h
  split at h
  · simp at h
  · exact h

/-- A successful `.dat` load produces a record with every attribute set, the
player scores being the result of the PlayerScores loop on some entry list. -/
theorem load_dat_ok_inv (root : Nbt) (wl bl : List String) (idn : Bool)
    (sb : Scoreboard) (h : Scoreboard.load (.datFile root) wl bl idn = .ok sb) :
    ∃ data teams objectives display_slots entries player_scores,
      sb = ⟨wl, bl, some data, some (.dict teams), some (.dict objectives),
            some (.dict player_scores), some (.dict display_slots)⟩
      ∧ processScores bl wl idn [] entries = .ok player_scores := by
  simp only [Scoreboard.load] at h
  obtain ⟨data, hdata, h⟩ := bind_ok_inv h
  obtain ⟨tt, htt, h⟩ := bind_ok_inv h
  obtain ⟨ts, hts, h⟩ := bind_ok_inv h
  obtain ⟨teams, hteams, h⟩ := bind_ok_inv h
  obtain ⟨ot, hot, h⟩ := bind_ok_inv h
  obtain ⟨os, hos, h⟩ := bind_ok_inv h
  obtain ⟨objectives, hobjs, h⟩ := bind_ok_inv h
  obtain ⟨dt, hdt, h⟩ := bind_ok_inv h
  obtain ⟨display_slots, hds, h⟩ := bind_ok_inv h
  obtain ⟨pt, hpt, h⟩ := bind_ok_inv h
  obtain ⟨pe, hpe, h⟩ := bind_ok_inv h
  obtain ⟨player_scores, hps, h⟩ := bind_ok_inv h
  have hsb := (Except.ok.inj h).symm
  exact ⟨data, teams, objectives, display_slots, pe, player_scores, hsb, hps⟩

/-- C10: in any record a `.dat` parse produces, every player key of the
player-scores mapping maps to a NON-EMPTY objective-to-score dict: a player
entry is only ever created together with the merge of a first accepted score
(source lines 96-99), so no player appears with zero objectives. -/
theorem C10_player_entries_nonempty (root : Nbt) (wl bl : FilterArg) (idn : Bool)
    (sb : Scoreboard) (h : Scoreboard.init (.datFile root) wl bl idn = .ok sb) :
    ∀ ps p v, sb.player_scores = some (.dict ps) → alistGet? ps p = some v →
      ∃ es, v = .dict es ∧ es ≠ [] := by
  intro ps p v hps hv
  have h2 := init_ok_load _ _ _ _ _ h
  obtain ⟨data, teams, objectives, display_slots, entries, player_scores, hsb, hproc⟩ :=
    load_dat_ok_inv _ _ _ _ _ h2
  subst hsb
  simp only [Option.some.injEq, PyVal.dict.injEq] at hps
  subst hps
  exact processScores_nonempty _ _ idn entries [] _
    (by intro p2 v2 hc; simp [alistGet?] at hc) hproc p v hv

/-- Witness for C10 at a one-entry source: the single player maps to a
non-empty dict. -/
theorem C10_player_entries_witness :
    ∃ es, PyVal.dict [("h", PyVal.int 1)] = .dict es ∧ es ≠ [] :=
  C10_player_entries_nonempty (scoresRoot [scoreEntryTag "alice" "h" 1])
    (.pathArg "" []) (.pathArg "" []) true
    ⟨[], [], some (scoresData [scoreEntryTag "alice" "h" 1]), some (.dict []),
      some (.dict []), some (.dict [("alice", .dict [("h", .int 1)])]),
      some (.dict [])⟩ rfl
    [("alice", .dict [("h", .int 1)])] "alice" (.dict [("h", .int 1)]) rfl rfl

/-- C9: round-trip. Any record a `.dat` parse produces serializes (via the
four-key `__dict__` document) to a JSON document that the `.json` parse path,
run with no filters, reads back into a record with the same four record
fields and the same serialization — lossless modulo the filtering already
applied when the record was built. -/
theorem C9_round_trip_serialization (root : Nbt) (wl bl : FilterArg) (idn : Bool)
    (sb : Scoreboard) (h : Scoreboard.init (.datFile root) wl bl idn = .ok sb) :
    ∃ doc, sb.toDict = some doc ∧
      ∃ sb2, Scoreboard.init (.jsonFile doc) (.pathArg "" []) (.pathArg "" []) true
          = .ok sb2
        ∧ sb2.teams = sb.teams ∧ sb2.objectives = sb.objectives
        ∧ sb2.player_scores = sb.player_scores
        ∧ sb2.display_slots = sb.display_slots
        ∧ sb2.toDict = sb.toDict := by
  have h2 := init_ok_load _ _ _ _ _ h
  obtain ⟨data, teams, objectives, display_slots, entries, player_scores, hsb, hproc⟩ :=
    load_dat_ok_inv _ _ _ _ _ h2
  subst hsb
  refine ⟨.dict [("Teams", .dict teams), ("Objectives", .dict objectives),
      ("PlayerScores", .dict player_scores), ("DisplaySlots", .dict display_slots)],
    rfl, ?_⟩
  refine ⟨⟨[], [], none, some (.dict teams), some (.dict objectives),
      some (.dict player_scores), some (.dict display_slots)⟩, ?_, rfl, rfl, rfl, rfl, rfl⟩
  simp [Scoreboard.init, Scoreboard.load, FilterArg.truthy, pyGet, alistGet?,
    Bind.bind, Except.bind]

/-- Witness for C9 at a concrete empty `.dat` source. -/
theorem C9_round_trip_witness :
    ∃ doc,
      Scoreboard.toDict ⟨[], [], some (scoresData []), some (.dict []),
        some (.dict []), some (.dict []), some (.dict [])⟩ = some doc ∧
      ∃ sb2, Scoreboard.init (.jsonFile doc) (.pathArg "" []) (.pathArg "" []) true
          = .ok sb2
        ∧ sb2.teams = some (PyVal.dict []) ∧ sb2.objectives = some (PyVal.dict [])
        ∧ sb2.player_scores = some (PyVal.dict [])
        ∧ sb2.display_slots = some (PyVal.dict [])
        ∧ sb2.toDict = Scoreboard.toDict ⟨[], [], some (scoresData []),
            some (.dict []), some (.dict []), some (.dict []), some (.dict [])⟩ :=
  C9_round_trip_serialization (scoresRoot []) (.pathArg "" []) (.pathArg "" []) true
    ⟨[], [], some (scoresData []), some (.dict []), some (.dict []),
      some (.dict []), some (.dict [])⟩ rfl

/-! ### Sortedness and stability of the ranking query (for C6) -/

/-- Stable sorting does not reorder the elements satisfying a predicate on
which the relation is reflexive-like: their subsequence is unchanged. -/
theorem insertionSort_filter_eq {α : Type} (r : α → α → Prop) [DecidableRel r]
    (l : List α) (q : α → Bool)
    (hq : ∀ a b, q a = true → q b = true → r a b) :
    (List.insertionSort r l).filter q = l.filter q := by
  have hall : ∀ a ∈ l.filter q, q a = true := fun a ha => (List.mem_filter.mp ha).2
  have hfl : (l.filter q).Pairwise r :=
    List.pairwise_of_forall_mem_list fun a ha b hb => hq a b (hall a ha) (hall b hb)
  have hsub : List.Sublist (l.filter q) (List.insertionSort r l) :=
    List.sublist_insertionSort hfl (List.filter_sublist l)
  have hperm : List.Perm ((List.insertionSort r l).filter q) (l.filter q) :=
    (List.perm_insertionSort r l).filter q
  have hsub2 : List.Sublist (l.filter q) ((List.insertionSort r l).filter q) := by
    have h2 := hsub.filter q
    rwa [List.filter_filter, (by simp : (fun a => q a && q a) = q)] at h2
  exact (hsub2.eq_of_length hperm.length_eq.symm).symm

/-- C6: for every record and objective, a successful ranking query is
non-decreasing in score when `ascending` and non-increasing otherwise; and it
is stable: for each score value, the players holding it appear in the same
order as in the unsorted extraction, which follows the iteration order of the
player-scores mapping — so the order is deterministic for a given input. -/
theorem C6_ranking_sorted_and_stable (ps : List (String × PyVal)) (target : String)
    (asc : Bool) (res : List (String × Int))
    (h : get_objective_scores ps target asc = .ok res) :
    (asc = true → res.Pairwise (fun a b => a.2 ≤ b.2))
    ∧ (asc = false → res.Pairwise (fun a b => b.2 ≤ a.2))
    ∧ ∀ kept pairs, unsortedScores target ps = .ok kept →
        scoresAsInts kept = .ok pairs →
        ∀ c : Int, res.filter (fun x => x.2 == c) = pairs.filter (fun x => x.2 == c) := by
  simp only [get_objective_scores] at h
  obtain ⟨kept0, hk0, h⟩ := bind_ok_inv h
  obtain ⟨pairs0, hp0, h⟩ := bind_ok_inv h
  have hres := (Except.ok.inj h).symm
  subst hres
  haveI ht1 : IsTotal (String × Int) (fun a b => a.2 ≤ b.2) := ⟨fun a b => le_total a.2 b.2⟩
  haveI ht2 : IsTrans (String × Int) (fun a b => a.2 ≤ b.2) :=
    ⟨fun a b c hab hbc => le_trans hab hbc⟩
  haveI ht3 : IsTotal (String × Int) (fun a b => b.2 ≤ a.2) := ⟨fun a b => le_total b.2 a.2⟩
  haveI ht4 : IsTrans (String × Int) (fun a b => b.2 ≤ a.2) :=
    ⟨fun a b c hab hbc => le_trans hbc hab⟩
  refine ⟨fun hasc => ?_, fun hasc => ?_, fun kept pairs hk hp c => ?_⟩
  · subst hasc
    simpa [pySortScores] using List.sorted_insertionSort (r := fun a b => a.2 ≤ b.2) pairs0
  · subst hasc
    simpa [pySortScores] using List.sorted_insertionSort (r := fun a b => b.2 ≤ a.2) pairs0
  · have hkk : kept = kept0 := Except.ok.inj (hk.symm.trans hk0)
    subst hkk
    have hpp : pairs = pairs0 := Except.ok.inj (hp.symm.trans hp0)
    subst hpp
    cases asc with
    | true =>
      simp only [pySortScores, if_pos]
      exact insertionSort_filter_eq _ pairs (fun x => x.2 == c)
        (fun a b ha hb => by
          have h1 : a.2 = c := by simpa using ha
          have h2 : b.2 = c := by simpa using hb
          simp [h1, h2])
    | false =>
      simp only [pySortScores, if_neg]
      exact insertionSort_filter_eq _ pairs (fun x => x.2 == c)
        (fun a b ha hb => by
          have h1 : a.2 = c := by simpa using ha
          have h2 : b.2 = c := by simpa using hb
          simp [h1, h2])

/-- Witness for C6 at a record with a tie: the result is sorted descending
and the two players with the tied score 2 keep their input order. -/
theorem C6_ranking_witness :
    (false = true → ([("c2", 5), ("a", 2), ("b", 2)] : List (String × Int)).Pairwise
        (fun a b => a.2 ≤ b.2))
    ∧ (false = false → ([("c2", 5), ("a", 2), ("b", 2)] : List (String × Int)).Pairwise
        (fun a b => b.2 ≤ a.2))
    ∧ ∀ kept pairs,
        unsortedScores "h" [("a", .dict [("h", .int 2)]), ("b", .dict [("h", .int 2)]),
          ("c2", .dict [("h", .int 5)])] = .ok kept →
        scoresAsInts kept = .ok pairs →
        ∀ c : Int, ([("c2", 5), ("a", 2), ("b", 2)] : List (String × Int)).filter
            (fun x => x.2 == c) = pairs.filter (fun x => x.2 == c) :=
  C6_ranking_sorted_and_stable
    [("a", .dict [("h", .int 2)]), ("b", .dict [("h", .int 2)]),
      ("c2", .dict [("h", .int 5)])] "h" false
    [("c2", 5), ("a", 2), ("b", 2)] rfl
